import Mathlib

/-!
Shallow embedding of the EasyAgents coordination core (task manager,
lock manager, agent manager) over a single workflow document.

Timestamps and durations are modelled as `Int` milliseconds (JS numbers
at the used sites are integral).  JS objects keyed by strings are
modelled as association lists with unique keys; assignment to an
existing key updates in place, assignment to a new key appends, matching
JS property-order semantics where it is observable.  JS truthiness of
`string | null | undefined` values (`null`, `undefined` and `""` are
falsy) is modelled by `optStrTruthy`, and `x || d` defaulting by the
`jsOr*` helpers.  Nondeterministic identifier generation is passed in as
an explicit parameter.
-/

namespace EasyAgents

inductive TaskStatus
  | pending
  | in_progress
  | completed
  | blocked
  | failed
deriving DecidableEq

def statusStr : TaskStatus → String
  | .pending => "pending"
  | .in_progress => "in_progress"
  | .completed => "completed"
  | .blocked => "blocked"
  | .failed => "failed"

inductive AgentStatus
  | active
  | inactive
  | terminated
deriving DecidableEq

inductive RefactorPriority
  | low
  | medium
  | high
deriving DecidableEq

inductive FileOperationType
  | create
  | modify
  | delete
deriving DecidableEq

structure TaskFile where
  path : String
  ftype : FileOperationType
  methods : Option (List String)
deriving DecidableEq

structure TaskResult where
  completed_at : Int
  summary : String
  output_ref : Option String
deriving DecidableEq

structure Task where
  id : String
  name : String
  description : String
  status : TaskStatus
  priority : Int
  assigned_agent : Option String
  dependencies : List String
  dependents : List String
  files : List TaskFile
  result : Option TaskResult
  async_execution : Bool
  task_type : String
  created_at : Int
  updated_at : Int
deriving DecidableEq

structure FileLock where
  locked_by : String
  locked_at : Int
  expires_at : Int
  methods : List String
  reason : String
  task_id : Option String
deriving DecidableEq

structure FileModification where
  file : String
  method : Option String
  modified_by : String
  modified_at : Int
  lines_changed : String
  reason : String
  task_id : String
deriving DecidableEq

structure RefactorSuggestion where
  id : String
  file : String
  method : Option String
  reason : String
  suggested_by : String
  created_at : Int
  priority : RefactorPriority
deriving DecidableEq

structure Agent where
  id : String
  name : String
  claimed_tasks : List String
  session_id : Option String
  status : AgentStatus
  last_active : Int
  created_at : Int
deriving DecidableEq

structure WorkflowConfig where
  lock_timeout : Int
  max_parallel_agents : Int
  auto_refactor_threshold : Int
  inactive_timeout : Int
deriving DecidableEq

structure Workflow where
  version : String
  project : String
  created_at : Int
  updated_at : Int
  config : WorkflowConfig
  agents : List (String × Agent)
  tasks : List (String × Task)
  locks : List (String × FileLock)
  modifications : List FileModification
  refactor_suggestions : List RefactorSuggestion
deriving DecidableEq

/-- Lookup in a string-keyed object (`obj[k]`). -/
def lookupKey (k : String) : List (String × α) → Option α
  | [] => none
  | (k', v) :: rest => if k' = k then some v else lookupKey k rest

/-- Assignment `obj[k] = v`: updates an existing key in place, appends a new one. -/
def insertKey (k : String) (v : α) : List (String × α) → List (String × α)
  | [] => [(k, v)]
  | (k', v') :: rest => if k' = k then (k, v) :: rest else (k', v') :: insertKey k v rest

/-- Deletion `delete obj[k]`. -/
def removeKey (k : String) : List (String × α) → List (String × α)
  | [] => []
  | (k', v') :: rest => if k' = k then rest else (k', v') :: removeKey k rest

/-- JS truthiness of a `string | null | undefined` value: `null`, `undefined`
and the empty string are falsy. -/
def optStrTruthy : Option String → Bool
  | none => false
  | some s => if s = "" then false else true

/-- JS `x || d` for an optional number (`0` is falsy). -/
def jsOrInt (v : Option Int) (d : Int) : Int :=
  match v with
  | none => d
  | some x => if x = 0 then d else x

/-- JS `x || d` for an optional string (`""` is falsy). -/
def jsOrStr (v : Option String) (d : String) : String :=
  match v with
  | none => d
  | some s => if s = "" then d else s

/-- WorkflowStore.normalizePath: `filePath.replace(/\\/g, "/")` converts
every backslash character to a forward slash. -/
def normalizePath (p : String) : String :=
  String.mk (p.data.map (fun c => if c = '\x5c' then '/' else c))

structure TaskClaimResult where
  success : Bool
  message : String
  task : Option Task
  agent_id : Option String
deriving DecidableEq

structure TaskCompleteResult where
  success : Bool
  message : String
  unblocked_tasks : Option (List String)
deriving DecidableEq

structure AddTaskOptions where
  name : String
  description : String
  priority : Option Int
  dependencies : Option (List String)
  files : Option (List TaskFile)
  async_execution : Option Bool
  task_type : Option String
deriving DecidableEq

/-- TaskManager.addTask.  `taskId` stands for the generated id
(`generateTaskId` draws on the clock and randomness).  Returns the
created task together with the saved document. -/
def addTask (wf : Workflow) (o : AddTaskOptions) (now : Int) (taskId : String) :
    Task × Workflow :=
  let task : Task := {
    id := taskId
    name := o.name
    description := o.description
    status := .pending
    priority := jsOrInt o.priority 3
    assigned_agent := none
    dependencies := o.dependencies.getD []
    dependents := []
    files := o.files.getD []
    result := none
    async_execution := o.async_execution.getD false
    task_type := jsOrStr o.task_type "task"
    created_at := now
    updated_at := now }
  let tasks1 := task.dependencies.foldl (fun ts depId =>
    match lookupKey depId ts with
    | some depTask =>
        if taskId ∈ depTask.dependents then ts
        else insertKey depId { depTask with dependents := depTask.dependents ++ [taskId] } ts
    | none => ts) wf.tasks
  (task, { wf with tasks := insertKey taskId task tasks1 })

/-- Dependency check of TaskManager.isTaskAvailable: every dependency id
must resolve to a task whose status is completed. -/
def depsCompleted (wf : Workflow) (deps : List String) : Bool :=
  deps.all (fun depId =>
    match lookupKey depId wf.tasks with
    | some depTask => depTask.status = .completed
    | none => false)

/-- TaskManager.isTaskAvailable. -/
def isTaskAvailable (task : Task) (wf : Workflow) : Bool :=
  if task.status ≠ .pending then false
  else if optStrTruthy task.assigned_agent then false
  else depsCompleted wf task.dependencies

/-- TaskManager.claimTask.  Returns the result and the document as saved
(unchanged on the failure paths, which do not save). -/
def claimTask (wf : Workflow) (taskId agentId : String) (now : Int) :
    TaskClaimResult × Workflow :=
  match lookupKey taskId wf.tasks with
  | none =>
      ({ success := false, message := "Task " ++ taskId ++ " not found",
         task := none, agent_id := none }, wf)
  | some task =>
      if ¬ isTaskAvailable task wf then
        if task.status ≠ .pending then
          ({ success := false, message := "Task is already " ++ statusStr task.status,
             task := none, agent_id := none }, wf)
        else if optStrTruthy task.assigned_agent then
          ({ success := false,
             message := "Task is already assigned to " ++ task.assigned_agent.getD "",
             task := none, agent_id := none }, wf)
        else
          ({ success := false, message := "Task dependencies not completed",
             task := none, agent_id := none }, wf)
      else
        let task' := { task with
          status := .in_progress,
          assigned_agent := some agentId,
          updated_at := now }
        let tasks' := insertKey taskId task' wf.tasks
        let agents' :=
          match lookupKey agentId wf.agents with
          | some agent =>
              let agent' := { agent with
                claimed_tasks :=
                  if taskId ∈ agent.claimed_tasks then agent.claimed_tasks
                  else agent.claimed_tasks ++ [taskId],
                last_active := now }
              insertKey agentId agent' wf.agents
          | none => wf.agents
        ({ success := true, message := "Task " ++ taskId ++ " claimed successfully",
           task := some task', agent_id := some agentId },
         { wf with tasks := tasks', agents := agents' })

structure CompleteOptions where
  summary : String
  output : Option String
deriving DecidableEq

/-- Reference returned by WorkflowStore.writeOutput for a task id (the
path of the output file; its exact shape is immaterial to the core). -/
def outputRefFor (taskId : String) : String :=
  taskId ++ ".md"

/-- TaskManager.completeTask. -/
def completeTask (wf : Workflow) (taskId : String) (o : CompleteOptions) (now : Int) :
    TaskCompleteResult × Workflow :=
  match lookupKey taskId wf.tasks with
  | none =>
      ({ success := false, message := "Task " ++ taskId ++ " not found",
         unblocked_tasks := none }, wf)
  | some task =>
      if task.status = .completed then
        ({ success := false, message := "Task is already completed",
           unblocked_tasks := none }, wf)
      else
        let outRef : Option String :=
          if optStrTruthy o.output then some (outputRefFor taskId) else none
        let task' := { task with
          status := .completed,
          result := some { completed_at := now, summary := o.summary, output_ref := outRef },
          updated_at := now }
        let tasks' := insertKey taskId task' wf.tasks
        let agents' :=
          if optStrTruthy task.assigned_agent then
            match lookupKey (task.assigned_agent.getD "") wf.agents with
            | some agent =>
                insertKey (task.assigned_agent.getD "")
                  { agent with
                    claimed_tasks := agent.claimed_tasks.filter (fun i => i ≠ taskId),
                    last_active := now } wf.agents
            | none => wf.agents
          else wf.agents
        let wfMid : Workflow := { wf with tasks := tasks', agents := agents' }
        let unblocked := task.dependents.filter (fun dId =>
          match lookupKey dId wfMid.tasks with
          | some dep => isTaskAvailable dep wfMid
          | none => false)
        ({ success := true, message := "Task " ++ taskId ++ " completed",
           unblocked_tasks := some unblocked }, wfMid)

structure WaitInfo where
  locked_by : String
  reason : String
  expires_in_ms : Int
  methods : List String
deriving DecidableEq

structure LockAcquireResult where
  success : Bool
  message : String
  lock : Option FileLock
  waitInfo : Option WaitInfo
deriving DecidableEq

structure LockReleaseResult where
  success : Bool
  message : String
deriving DecidableEq

structure LockWaitResult where
  released : Bool
  modifications : Option (List FileModification)
  timedOut : Bool
deriving DecidableEq

structure AcquireOptions where
  methods : Option (List String)
  reason : String
  timeout : Option Int
  task_id : Option String
deriving DecidableEq

structure ModificationInput where
  method : Option String
  lines_changed : String
  reason : String
  task_id : String
deriving DecidableEq

/-- LockManager.isLockExpired: `new Date(lock.expires_at) <= new Date()`. -/
def isLockExpired (lock : FileLock) (now : Int) : Bool :=
  lock.expires_at ≤ now

/-- LockManager.methodsConflict. -/
def methodsConflict (requestedMethods lockedMethods : List String) : Bool :=
  if lockedMethods.contains "*" || requestedMethods.contains "*" then true
  else requestedMethods.any (fun m => lockedMethods.contains m)

/-- Helper for `[...new Set(a ++ b)]`: removes duplicates keeping the first
occurrence of each element; `seen` accumulates the elements already kept. -/
def dedupKeepFirst (seen : List String) : List String → List String
  | [] => []
  | x :: xs =>
      if x ∈ seen then dedupKeepFirst seen xs
      else x :: dedupKeepFirst (x :: seen) xs

/-- JS `[...new Set([...a, ...b])]`: union of two method lists, insertion
order, first occurrence kept. -/
def unionMethods (a b : List String) : List String :=
  dedupKeepFirst [] (a ++ b)

/-- LockManager.createLock (private helper): installs a fresh lease at
`filePath` (already normalized) and saves. -/
def createLock (wf : Workflow) (filePath agentId : String) (methods : List String)
    (reason : String) (timeout : Int) (taskId : Option String) (now : Int) :
    LockAcquireResult × Workflow :=
  let lock : FileLock := {
    locked_by := agentId
    locked_at := now
    expires_at := now + timeout
    methods := methods
    reason := reason
    task_id := taskId }
  ({ success := true, message := "Lock acquired successfully",
     lock := some lock, waitInfo := none },
   { wf with locks := insertKey filePath lock wf.locks })

/-- LockManager.acquireLock. -/
def acquireLock (wf : Workflow) (filePath agentId : String) (o : AcquireOptions)
    (now : Int) : LockAcquireResult × Workflow :=
  let normalizedPath := normalizePath filePath
  let requestedMethods := o.methods.getD ["*"]
  let timeout := jsOrInt o.timeout wf.config.lock_timeout
  match lookupKey normalizedPath wf.locks with
  | some existingLock =>
      if isLockExpired existingLock now then
        createLock { wf with locks := removeKey normalizedPath wf.locks }
          normalizedPath agentId requestedMethods o.reason timeout o.task_id now
      else if existingLock.locked_by = agentId then
        let lock' := { existingLock with
          expires_at := now + timeout,
          methods := unionMethods existingLock.methods requestedMethods }
        ({ success := true, message := "Lock extended", lock := some lock',
           waitInfo := none },
         { wf with locks := insertKey normalizedPath lock' wf.locks })
      else if ¬ methodsConflict requestedMethods existingLock.methods then
        createLock wf normalizedPath agentId requestedMethods o.reason timeout
          o.task_id now
      else
        ({ success := false,
           message := "File locked by " ++ existingLock.locked_by,
           lock := none,
           waitInfo := some {
             locked_by := existingLock.locked_by,
             reason := existingLock.reason,
             expires_in_ms := existingLock.expires_at - now,
             methods := existingLock.methods } }, wf)
  | none =>
      createLock wf normalizedPath agentId requestedMethods o.reason timeout
        o.task_id now

/-- LockManager.checkRefactorSuggestion (private helper); `now` also feeds
the generated suggestion id. -/
def checkRefactorSuggestion (wf : Workflow) (filePath : String)
    (method : Option String) (now : Int) : Workflow :=
  let threshold := wf.config.auto_refactor_threshold
  let oneDayAgo := now - 24 * 60 * 60 * 1000
  let recentMods := wf.modifications.filter (fun m =>
    m.file = filePath ∧
    (optStrTruthy method = false ∨ m.method = method) ∧
    oneDayAgo < m.modified_at)
  if threshold ≤ (recentMods.length : Int) then
    let existingSuggestion := wf.refactor_suggestions.find? (fun s =>
      s.file = filePath ∧ (optStrTruthy method = false ∨ s.method = method))
    match existingSuggestion with
    | some _ => wf
    | none =>
        let suggestion : RefactorSuggestion := {
          id := "refactor_" ++ toString now
          file := filePath
          method := method
          reason :=
            match method with
            | some m =>
                if m = "" then
                  "File has been modified " ++ toString recentMods.length ++
                    " times in the last 24 hours"
                else
                  "Method \x22" ++ m ++ "\x22 has been modified " ++
                    toString recentMods.length ++ " times in the last 24 hours"
            | none =>
                "File has been modified " ++ toString recentMods.length ++
                  " times in the last 24 hours"
          suggested_by := "system"
          created_at := now
          priority :=
            if threshold * 2 ≤ (recentMods.length : Int) then .high else .medium }
        { wf with refactor_suggestions := wf.refactor_suggestions ++ [suggestion] }
  else wf

/-- LockManager.releaseLock. -/
def releaseLock (wf : Workflow) (filePath agentId : String)
    (modification : Option ModificationInput) (now : Int) :
    LockReleaseResult × Workflow :=
  let normalizedPath := normalizePath filePath
  match lookupKey normalizedPath wf.locks with
  | none => ({ success := false, message := "No lock found for this file" }, wf)
  | some lock =>
      if lock.locked_by ≠ agentId then
        ({ success := false,
           message := "Lock owned by " ++ lock.locked_by ++ ", not " ++ agentId }, wf)
      else
        let wf1 :=
          match modification with
          | some m =>
              let recorded : FileModification := {
                file := normalizedPath
                method := m.method
                modified_by := agentId
                modified_at := now
                lines_changed := m.lines_changed
                reason := m.reason
                task_id := m.task_id }
              checkRefactorSuggestion
                { wf with modifications := wf.modifications ++ [recorded] }
                normalizedPath m.method now
          | none => wf
        ({ success := true, message := "Lock released successfully" },
         { wf1 with locks := removeKey normalizedPath wf1.locks })

/-- The `locked` flag computed by LockManager.getLockStatus at time `now`
(its expired-lock deletion side effect touches only the lease record, never
the modification history, so the polling loop below needs only this flag). -/
def lockIsHeld (wf : Workflow) (filePath : String) (now : Int) : Bool :=
  match lookupKey (normalizePath filePath) wf.locks with
  | none => false
  | some lock => ¬ isLockExpired lock now

/-- LockManager.waitForLock as a fuel-indexed polling loop.  `env j` is the
document the store returns at the j-th poll; time is idealized so that the
j-th poll happens at `startTime + j * checkInterval` (each iteration sleeps
`checkInterval`).  Returns `none` when the fuel is exhausted before the loop
decides; theorems supply sufficient fuel. -/
def waitForLockAux (env : Nat → Workflow) (filePath : String)
    (startTime timeout checkInterval : Int) : Nat → Nat → Option LockWaitResult
  | 0, _ => none
  | fuel + 1, j =>
      let now := startTime + (j : Int) * checkInterval
      if now - startTime < timeout then
        if lockIsHeld (env j) filePath now then
          waitForLockAux env filePath startTime timeout checkInterval fuel (j + 1)
        else
          some { released := true,
                 modifications := some ((env j).modifications.filter (fun m =>
                   m.file = normalizePath filePath ∧
                   startTime - 60000 < m.modified_at)),
                 timedOut := false }
      else
        some { released := false, modifications := none, timedOut := true }

structure AgentTakeoverResult where
  success : Bool
  message : String
  inherited_tasks : Option (List String)
deriving DecidableEq

/-- The WorkflowStore as seen by the agent manager: the persisted document
plus the single-slot local agent identity file.  Each `load()` hands out a
fresh copy of `doc`; each `save(w)` replaces `doc` by `w`. -/
structure Store where
  doc : Workflow
  localAgentId : Option String
deriving DecidableEq

/-- AgentManager.getOrCreateCurrentAgent.  `freshId` and `freshSession`
stand for the generated agent id and session id.  Returns the agent object
handed back to the caller together with the store after its save. -/
def getOrCreateCurrentAgent (st : Store) (name : Option String) (now : Int)
    (freshId freshSession : String) : Agent × Store :=
  let wf := st.doc
  let existing : Option (String × Agent) :=
    if optStrTruthy st.localAgentId then
      match lookupKey (st.localAgentId.getD "") wf.agents with
      | some agent => some (st.localAgentId.getD "", agent)
      | none => none
    else none
  match existing with
  | some (aid, agent) =>
      let agent' := { agent with last_active := now, status := .active }
      (agent', { st with doc := { wf with agents := insertKey aid agent' wf.agents } })
  | none =>
      let agent : Agent := {
        id := freshId
        name := jsOrStr name ("Agent " ++ toString (wf.agents.length + 1))
        claimed_tasks := []
        session_id := some freshSession
        status := .active
        last_active := now
        created_at := now }
      (agent,
       { doc := { wf with agents := insertKey freshId agent wf.agents },
         localAgentId := some freshId })

/-- AgentManager.takeoverAgent.  Mirrors the source's aliasing: the method
loads the document once (`workflow`), then `getOrCreateCurrentAgent` loads a
second copy, mutates and saves it, and returns an agent object belonging to
that second copy; the pushes into `currentAgent.claimed_tasks` and the final
`currentAgent.last_active` write therefore land on the already-saved second
copy and are absent from the first copy, which the method saves last. -/
def takeoverAgent (st : Store) (targetAgentId : String) (now : Int)
    (freshId freshSession : String) : AgentTakeoverResult × Store :=
  let workflow := st.doc
  match lookupKey targetAgentId workflow.agents with
  | none =>
      ({ success := false, message := "Agent " ++ targetAgentId ++ " not found",
         inherited_tasks := none }, st)
  | some targetAgent =>
      if targetAgent.status = .terminated then
        ({ success := false, message := "Agent is already terminated",
           inherited_tasks := none }, st)
      else
        let got := getOrCreateCurrentAgent st none now freshId freshSession
        let currentAgent := got.1
        let st2 := got.2
        if currentAgent.id = targetAgentId then
          ({ success := false, message := "Cannot takeover yourself",
             inherited_tasks := none }, st2)
        else
          let inheritedTasks := targetAgent.claimed_tasks
          let tasks' := inheritedTasks.foldl (fun ts taskId =>
            match lookupKey taskId ts with
            | some task =>
                insertKey taskId { task with assigned_agent := some currentAgent.id } ts
            | none => ts) workflow.tasks
          let targetAgent' := { targetAgent with
            status := .terminated,
            claimed_tasks := [] }
          let agents' := insertKey targetAgentId targetAgent' workflow.agents
          let locks' := workflow.locks.map (fun pl =>
            if pl.2.locked_by = targetAgentId then
              (pl.1, { pl.2 with locked_by := currentAgent.id })
            else pl)
          let finalDoc := { workflow with
            tasks := tasks',
            agents := agents',
            locks := locks' }
          ({ success := true,
             message := "Took over " ++ toString inheritedTasks.length ++
               " tasks from " ++ targetAgent.name,
             inherited_tasks := some inheritedTasks },
           { st2 with doc := finalDoc })

/-! ## Concrete fixtures shared by the witnesses and counterexamples -/

def cfgDefault : WorkflowConfig :=
  { lock_timeout := 180000, max_parallel_agents := 5,
    auto_refactor_threshold := 3, inactive_timeout := 600000 }

def emptyWf : Workflow :=
  { version := "1.0", project := "demo", created_at := 0, updated_at := 0,
    config := cfgDefault, agents := [], tasks := [], locks := [],
    modifications := [], refactor_suggestions := [] }

def baseTask (i : String) : Task :=
  { id := i, name := i, description := "", status := .pending, priority := 3,
    assigned_agent := none, dependencies := [], dependents := [], files := [],
    result := none, async_execution := false, task_type := "task",
    created_at := 0, updated_at := 0 }

def baseAgent (i : String) : Agent :=
  { id := i, name := i, claimed_tasks := [], session_id := some "s",
    status := .active, last_active := 0, created_at := 0 }

def baseLock (owner : String) (exp : Int) (ms : List String) : FileLock :=
  { locked_by := owner, locked_at := 0, expires_at := exp, methods := ms,
    reason := "r", task_id := none }

/-! ## Helper lemmas -/

theorem lookupKey_insertKey_self (k : String) (v : α) (m : List (String × α)) :
    lookupKey k (insertKey k v m) = some v := by
  induction m with
  | nil => simp [insertKey, lookupKey]
  | cons hd tl ih =>
      by_cases h : hd.1 = k <;> simp [insertKey, lookupKey, h, ih]

theorem lookupKey_insertKey_ne (k k' : String) (v : α) (m : List (String × α))
    (h : k' ≠ k) : lookupKey k (insertKey k' v m) = lookupKey k m := by
  induction m with
  | nil => simp [insertKey, lookupKey, h]
  | cons hd tl ih =>
      by_cases h1 : hd.1 = k' <;> by_cases h2 : hd.1 = k <;>
        simp_all [insertKey, lookupKey]

theorem mem_dedupKeepFirst (x : String) (seen l : List String) :
    x ∈ dedupKeepFirst seen l ↔ x ∈ l ∧ x ∉ seen := by
  induction l generalizing seen with
  | nil => simp [dedupKeepFirst]
  | cons hd tl ih =>
      by_cases h : hd ∈ seen
      · simp only [dedupKeepFirst, if_pos h, ih, List.mem_cons]
        constructor
        · rintro ⟨hx, hn⟩
          exact ⟨Or.inr hx, hn⟩
        · rintro ⟨rfl | hx, hn⟩
          · exact absurd h hn
          · exact ⟨hx, hn⟩
      · simp only [dedupKeepFirst, if_neg h, ih, List.mem_cons]
        constructor
        · rintro (rfl | ⟨hx, hn⟩)
          · exact ⟨Or.inl rfl, h⟩
          · exact ⟨Or.inr hx, fun hc => hn (Or.inr hc)⟩
        · rintro ⟨rfl | hx, hn⟩
          · exact Or.inl rfl
          · by_cases hxh : x = hd
            · exact Or.inl hxh
            · exact Or.inr ⟨hx, fun hc => hc.elim hxh hn⟩

theorem mem_unionMethods (x : String) (a b : List String) :
    x ∈ unionMethods a b ↔ x ∈ a ∨ x ∈ b := by
  simp [unionMethods, mem_dedupKeepFirst]

theorem optStrTruthy_eq_false_iff (v : Option String) :
    optStrTruthy v = false ↔ v = none ∨ v = some "" := by
  cases v with
  | none => simp [optStrTruthy]
  | some s => by_cases h : s = "" <;> simp [optStrTruthy, h]

theorem jsOrInt_of_falsy (v : Option Int) (d : Int) (h : v = none ∨ v = some 0) :
    jsOrInt v d = d := by
  rcases h with h | h <;> simp [jsOrInt, h]

theorem jsOrInt_ne_zero (v : Option Int) (d : Int) (hd : d ≠ 0) :
    jsOrInt v d ≠ 0 := by
  cases v with
  | none => simpa [jsOrInt] using hd
  | some x => by_cases h : x = 0 <;> simp [jsOrInt, h, hd]

theorem depsCompleted_iff (wf : Workflow) (deps : List String) :
    depsCompleted wf deps = true ↔
      ∀ depId ∈ deps, ∃ depTask,
        lookupKey depId wf.tasks = some depTask ∧ depTask.status = .completed := by
  unfold depsCompleted
  rw [List.all_eq_true]
  refine forall₂_congr (fun depId _ => ?_)
  cases h : lookupKey depId wf.tasks with
  | none => simp [h]
  | some depTask => simp [h]

/-! ## C4: availability of a task -/

def taskC4 : Task := { baseTask "t1" with assigned_agent := some "" }

def wfC4 : Workflow := { emptyWf with tasks := [("t1", taskC4)] }

/-- C4 counterexample: a pending task with no dependencies whose
assigned-agent field holds the empty string (a value JS treats as falsy) is
reported available even though its assigned-agent field is not null, so
availability is not equivalent to "no assigned agent". -/
theorem isTaskAvailable_empty_assignee_counterexample :
    isTaskAvailable taskC4 wfC4 = true ∧ taskC4.assigned_agent ≠ none := by
  exact ⟨rfl, by simp [taskC4, baseTask]⟩

/-- C4 (amended): isTaskAvailable is true exactly when the task is pending,
its assigned-agent field is null or the empty string, and every dependency
id resolves to an existing task with status completed (a missing dependency
makes the task unavailable). -/
theorem isTaskAvailable_iff (task : Task) (wf : Workflow) :
    isTaskAvailable task wf = true ↔
      task.status = .pending ∧
      (task.assigned_agent = none ∨ task.assigned_agent = some "") ∧
      (∀ depId ∈ task.dependencies, ∃ depTask,
        lookupKey depId wf.tasks = some depTask ∧ depTask.status = .completed) := by
  unfold isTaskAvailable
  by_cases hst : task.status = TaskStatus.pending
  · by_cases hass : optStrTruthy task.assigned_agent = false
    · rw [if_neg (by simp [hst]), if_neg (by simp [hass]), depsCompleted_iff]
      have h2 := (optStrTruthy_eq_false_iff task.assigned_agent).mp hass
      simp [hst, h2]
    · have htruthy : optStrTruthy task.assigned_agent = true := by
        cases hh : optStrTruthy task.assigned_agent
        · exact absurd hh hass
        · rfl
      have hno : ¬ (task.assigned_agent = none ∨ task.assigned_agent = some "") := by
        intro hc
        rw [← optStrTruthy_eq_false_iff, htruthy] at hc
        cases hc
      rw [if_neg (by simp [hst]), if_pos htruthy]
      simp [hno]
  · simp [hst]

/-- C4 witness for the amended theorem, instantiated at a fresh pending
unassigned task with no dependencies in the empty document. -/
theorem isTaskAvailable_iff_witness :
    isTaskAvailable (baseTask "w4") emptyWf = true :=
  (isTaskAvailable_iff (baseTask "w4") emptyWf).mpr
    ⟨rfl, Or.inl rfl, by simp [baseTask]⟩

/-! ## C9: addTask priority defaulting -/

/-- C9: a falsy priority argument (absent or 0) stores priority 3, both in
the returned task and in the saved document, and no addTask call can ever
store priority 0. -/
theorem addTask_priority_spec (wf : Workflow) (o : AddTaskOptions) (now : Int)
    (taskId : String) :
    ((o.priority = none ∨ o.priority = some 0) →
      ((addTask wf o now taskId).1.priority = 3 ∧
       ∃ t, lookupKey taskId (addTask wf o now taskId).2.tasks = some t ∧
         t.priority = 3)) ∧
    (addTask wf o now taskId).1.priority ≠ 0 := by
  have hl : lookupKey taskId (addTask wf o now taskId).2.tasks =
      some (addTask wf o now taskId).1 := by
    simp only [addTask]
    exact lookupKey_insertKey_self _ _ _
  have hp : (addTask wf o now taskId).1.priority = jsOrInt o.priority 3 := by
    simp [addTask]
  constructor
  · intro h
    refine ⟨?_, ⟨_, hl, ?_⟩⟩ <;> rw [hp, jsOrInt_of_falsy o.priority 3 h]
  · rw [hp]
    exact jsOrInt_ne_zero o.priority 3 (by decide)

/-- C9 witness: adding a task with priority argument 0 to the empty
document stores priority 3. -/
theorem addTask_priority_spec_witness :
    (addTask emptyWf
      { name := "n", description := "d", priority := some 0, dependencies := none,
        files := none, async_execution := none, task_type := none } 0 "t9").1.priority
      = 3 ∧
    (addTask emptyWf
      { name := "n", description := "d", priority := some 0, dependencies := none,
        files := none, async_execution := none, task_type := none } 0 "t9").1.priority
      ≠ 0 := by
  refine ⟨((addTask_priority_spec emptyWf _ 0 "t9").1 (Or.inr rfl)).1, ?_⟩
  exact (addTask_priority_spec emptyWf
    { name := "n", description := "d", priority := some 0, dependencies := none,
      files := none, async_execution := none, task_type := none } 0 "t9").2

/-! ## C10: claimTask with an unregistered agent id -/

/-- C10: claiming an available task under an agent id that is absent from
the agents collection succeeds, marks the task in_progress with that
assignee, and leaves the agents collection untouched. -/
theorem claimTask_unknown_agent (wf : Workflow) (taskId agentId : String)
    (now : Int) (task : Task)
    (htask : lookupKey taskId wf.tasks = some task)
    (havail : isTaskAvailable task wf = true)
    (hagent : lookupKey agentId wf.agents = none) :
    (claimTask wf taskId agentId now).1.success = true ∧
    lookupKey taskId (claimTask wf taskId agentId now).2.tasks =
      some { task with
        status := .in_progress,
        assigned_agent := some agentId,
        updated_at := now } ∧
    (claimTask wf taskId agentId now).2.agents = wf.agents := by
  simp [claimTask, htask, havail, hagent, lookupKey_insertKey_self]

def wfC10 : Workflow := { emptyWf with tasks := [("t1", baseTask "t1")] }

/-- C10 witness: in a document holding a single pending task and no agents,
agent id "ghost" successfully claims the task and the (empty) agents
collection is unchanged. -/
theorem claimTask_unknown_agent_witness :
    (claimTask wfC10 "t1" "ghost" 7).1.success = true ∧
    lookupKey "t1" (claimTask wfC10 "t1" "ghost" 7).2.tasks =
      some { baseTask "t1" with
        status := .in_progress,
        assigned_agent := some "ghost",
        updated_at := 7 } ∧
    (claimTask wfC10 "t1" "ghost" 7).2.agents = wfC10.agents :=
  claimTask_unknown_agent wfC10 "t1" "ghost" 7 (baseTask "t1") rfl rfl rfl

/-! ## C2: same-owner lease extension -/

def lockC2 : FileLock := baseLock "a1" 1000 ["x"]

def wfC2 : Workflow := { emptyWf with locks := [("f", lockC2)] }

def optsC2 : AcquireOptions :=
  { methods := some ["y"], reason := "r2", timeout := some 100, task_id := none }

/-- C2 counterexample: a lease owned by a1 expiring at 1000 is re-acquired
by a1 at time 10 with duration 100; the code sets the new expiry to
10 + 100 = 110, not to the later of the original expiry and now + duration
(max 1000 110 = 1000), so the claimed expiry rule fails. -/
theorem acquireLock_extend_expiry_counterexample :
    (acquireLock wfC2 "f" "a1" optsC2 10).1.success = true ∧
    ((acquireLock wfC2 "f" "a1" optsC2 10).1.lock.map (fun l => l.expires_at))
      = some 110 ∧
    ¬ (((acquireLock wfC2 "f" "a1" optsC2 10).1.lock.map (fun l => l.expires_at))
      = some (max 1000 (10 + 100))) := by
  refine ⟨by decide, by decide, ?_⟩
  have hmax : (max 1000 (10 + 100) : Int) = 1000 := by norm_num
  rw [hmax]
  decide

/-- C2 (amended): re-acquiring an unexpired lease as its owner succeeds
with an "extended" result whose method set is the union of the old and the
requested methods and whose expiry is now + duration (duration falsy
resolves to the configured default), regardless of the original expiry. -/
theorem acquireLock_extend_spec (wf : Workflow) (filePath agentId : String)
    (o : AcquireOptions) (now : Int) (lock : FileLock)
    (hlock : lookupKey (normalizePath filePath) wf.locks = some lock)
    (hunexp : isLockExpired lock now = false)
    (howner : lock.locked_by = agentId) :
    (acquireLock wf filePath agentId o now).1.success = true ∧
    (acquireLock wf filePath agentId o now).1.message = "Lock extended" ∧
    ∃ lock',
      (acquireLock wf filePath agentId o now).1.lock = some lock' ∧
      lookupKey (normalizePath filePath)
        (acquireLock wf filePath agentId o now).2.locks = some lock' ∧
      lock'.locked_by = agentId ∧
      lock'.expires_at = now + jsOrInt o.timeout wf.config.lock_timeout ∧
      (∀ x, x ∈ lock'.methods ↔ x ∈ lock.methods ∨ x ∈ o.methods.getD ["*"]) := by
  simp only [acquireLock, hlock]
  rw [if_neg (by simp [hunexp]), if_pos howner]
  refine ⟨rfl, rfl, _, rfl, lookupKey_insertKey_self _ _ _, howner, rfl,
    fun x => mem_unionMethods x _ _⟩

/-- C2 witness: extending the fixture lease above yields methods
{"x","y"} and expiry 110. -/
theorem acquireLock_extend_spec_witness :
    (acquireLock wfC2 "f" "a1" optsC2 10).1.success = true ∧
    ∃ lock',
      (acquireLock wfC2 "f" "a1" optsC2 10).1.lock = some lock' ∧
      lock'.expires_at = 10 + jsOrInt (some 100) wfC2.config.lock_timeout ∧
      ("x" ∈ lock'.methods ∧ "y" ∈ lock'.methods) := by
  obtain ⟨hs, -, lock', hl, -, -, he, hm⟩ :=
    acquireLock_extend_spec wfC2 "f" "a1" optsC2 10 lockC2 rfl rfl rfl
  exact ⟨hs, lock', hl, he,
    (hm "x").mpr (Or.inl (by simp [lockC2, baseLock])),
    (hm "y").mpr (Or.inr (by simp [optsC2]))⟩

/-! ## C3: different-owner acquisition -/

/-- Number of lease records stored under a given path key. -/
def countKey (k : String) (m : List (String × α)) : Nat :=
  (m.filter (fun pl => pl.1 = k)).length

theorem countKey_eq_zero_of_not_mem (k : String) (m : List (String × α))
    (h : k ∉ m.map Prod.fst) : countKey k m = 0 := by
  induction m with
  | nil => rfl
  | cons hd tl ih =>
      simp only [List.map_cons, List.mem_cons] at h
      push_neg at h
      simp only [countKey, List.filter_cons]
      rw [if_neg (by simp [Ne.symm h.1])]
      exact ih h.2

theorem countKey_insertKey_of_found (k : String) (v : α) (m : List (String × α))
    (hnodup : (m.map Prod.fst).Nodup) (hfound : lookupKey k m ≠ none) :
    countKey k (insertKey k v m) = 1 := by
  induction m with
  | nil => simp [lookupKey] at hfound
  | cons hd tl ih =>
      simp only [List.map_cons, List.nodup_cons] at hnodup
      by_cases h : hd.1 = k
      · simp only [insertKey, if_pos h, countKey, List.filter_cons]
        rw [if_pos (by simp)]
        have : countKey k tl = 0 :=
          countKey_eq_zero_of_not_mem k tl (h ▸ hnodup.1)
        simpa [countKey] using this
      · simp only [insertKey, if_neg h, countKey, List.filter_cons]
        rw [if_neg (by simp [h])]
        have hf : lookupKey k tl ≠ none := by
          simpa [lookupKey, h] using hfound
        exact ih hnodup.2 hf

theorem methodsConflict_iff (r l : List String) :
    methodsConflict r l = true ↔
      "*" ∈ l ∨ "*" ∈ r ∨ ∃ m, m ∈ r ∧ m ∈ l := by
  by_cases hw : l.contains "*" || r.contains "*"
  · simp only [methodsConflict, if_pos hw, true_iff]
    rcases Bool.or_eq_true_iff.mp hw with h | h
    · exact Or.inl (List.elem_iff.mp h)
    · exact Or.inr (Or.inl (List.elem_iff.mp h))
  · simp only [methodsConflict, if_neg hw]
    rw [Bool.or_eq_true_iff] at hw
    push_neg at hw
    have hl : "*" ∉ l := fun hc => hw.1 (List.elem_iff.mpr hc)
    have hr : "*" ∉ r := fun hc => hw.2 (List.elem_iff.mpr hc)
    simp only [List.any_eq_true]
    constructor
    · rintro ⟨m, hm, hc⟩
      exact Or.inr (Or.inr ⟨m, hm, List.elem_iff.mp hc⟩)
    · rintro (h | h | ⟨m, hm, hc⟩)
      · exact absurd h hl
      · exact absurd h hr
      · exact ⟨m, hm, List.elem_iff.mpr hc⟩

/-- C3: a request by a different agent against an unexpired lease fails
exactly when one side's method set holds the wildcard or the sets
intersect; on failure it reports the holder, reason, held methods and
remaining expiry time and leaves the document unchanged; on no conflict it
installs a fresh lease for the requester as the path's single lease
record. -/
theorem acquireLock_other_owner_spec (wf : Workflow) (filePath agentB : String)
    (o : AcquireOptions) (now : Int) (lock : FileLock)
    (hlock : lookupKey (normalizePath filePath) wf.locks = some lock)
    (hunexp : isLockExpired lock now = false)
    (howner : lock.locked_by ≠ agentB)
    (hnodup : (wf.locks.map Prod.fst).Nodup) :
    ((acquireLock wf filePath agentB o now).1.success = false ↔
      ("*" ∈ lock.methods ∨ "*" ∈ o.methods.getD ["*"] ∨
        ∃ m, m ∈ o.methods.getD ["*"] ∧ m ∈ lock.methods)) ∧
    (methodsConflict (o.methods.getD ["*"]) lock.methods = true →
      (acquireLock wf filePath agentB o now).1.waitInfo =
        some { locked_by := lock.locked_by, reason := lock.reason,
               expires_in_ms := lock.expires_at - now, methods := lock.methods } ∧
      (acquireLock wf filePath agentB o now).2 = wf) ∧
    (methodsConflict (o.methods.getD ["*"]) lock.methods = false →
      (acquireLock wf filePath agentB o now).1.success = true ∧
      lookupKey (normalizePath filePath)
        (acquireLock wf filePath agentB o now).2.locks =
        some { locked_by := agentB, locked_at := now,
               expires_at := now + jsOrInt o.timeout wf.config.lock_timeout,
               methods := o.methods.getD ["*"], reason := o.reason,
               task_id := o.task_id } ∧
      countKey (normalizePath filePath)
        (acquireLock wf filePath agentB o now).2.locks = 1) := by
  simp only [acquireLock, hlock]
  rw [if_neg (by simp [hunexp]), if_neg howner]
  by_cases hconf : methodsConflict (o.methods.getD ["*"]) lock.methods = true
  · rw [if_neg (by simp [hconf])]
    refine ⟨?_, ?_, ?_⟩
    · simpa using (methodsConflict_iff (o.methods.getD ["*"]) lock.methods).mp hconf
    · intro _
      exact ⟨rfl, rfl⟩
    · intro hc
      simp [hconf] at hc
  · have hfalse : methodsConflict (o.methods.getD ["*"]) lock.methods = false := by
      cases hmc : methodsConflict (o.methods.getD ["*"]) lock.methods
      · rfl
      · exact absurd hmc hconf
    rw [if_pos hconf]
    refine ⟨?_, ?_, ?_⟩
    · simp only [createLock]
      constructor
      · intro hc
        exact absurd hc (by decide)
      · intro hc
        exact absurd ((methodsConflict_iff _ _).mpr hc) (by simp [hfalse])
    · intro hc
      simp [hfalse] at hc
    · intro _
      refine ⟨rfl, ?_, ?_⟩
      · simp only [createLock]
        exact lookupKey_insertKey_self _ _ _
      · simp only [createLock]
        exact countKey_insertKey_of_found _ _ _ hnodup (by simp [hlock])

def wfC3 : Workflow := { emptyWf with locks := [("f", baseLock "a1" 1000 ["foo"])] }

def optsC3 : AcquireOptions :=
  { methods := some ["foo"], reason := "w", timeout := none, task_id := none }

/-- C3 witness: agent a2 requesting method "foo" on a path whose unexpired
lease is held by a1 for "foo" is refused with a1's identity, reason, held
methods and 990 ms to expiry, with the document unchanged. -/
theorem acquireLock_other_owner_spec_witness :
    (acquireLock wfC3 "f" "a2" optsC3 10).1.waitInfo =
      some { locked_by := "a1", reason := "r", expires_in_ms := 990,
             methods := ["foo"] } ∧
    (acquireLock wfC3 "f" "a2" optsC3 10).2 = wfC3 :=
  (acquireLock_other_owner_spec wfC3 "f" "a2" optsC3 10
    (baseLock "a1" 1000 ["foo"]) rfl rfl (by decide) (by decide)).2.1 rfl

/-! ## C5: claimTask failure taxonomy and claim exclusivity -/

/-- Inversion of a successful claim: the task existed, was available, and
the saved document records the in_progress assignment. -/
theorem claimTask_success_inv (wf : Workflow) (taskId agentId : String) (now : Int)
    (hsucc : (claimTask wf taskId agentId now).1.success = true) :
    ∃ task, lookupKey taskId wf.tasks = some task ∧
      isTaskAvailable task wf = true ∧
      (claimTask wf taskId agentId now).2.tasks =
        insertKey taskId { task with
          status := .in_progress,
          assigned_agent := some agentId,
          updated_at := now } wf.tasks := by
  cases hl : lookupKey taskId wf.tasks with
  | none => simp [claimTask, hl] at hsucc
  | some task =>
      by_cases hav : isTaskAvailable task wf = true
      · exact ⟨task, rfl, hav, by simp [claimTask, hl, hav]⟩
      · exfalso
        have hfa : isTaskAvailable task wf = false := by
          cases h' : isTaskAvailable task wf
          · rfl
          · exact absurd h' hav
        by_cases hst : task.status = TaskStatus.pending
        · by_cases hass : optStrTruthy task.assigned_agent = true
          · simp [claimTask, hl, hfa, hst, hass] at hsucc
          · simp [claimTask, hl, hfa, hst, hass] at hsucc
        · simp [claimTask, hl, hfa, hst] at hsucc

/-- C5: claimTask fails with a not-found message when the task is absent;
when the task is present but unavailable it fails with one of three
distinguishable conflict messages (non-pending status, already assigned,
dependencies unmet); and once a claim has succeeded, any subsequent claim
of the same task (by any agent) on the saved document fails with the
non-pending conflict until the task is deleted or reset to pending. -/
theorem claimTask_errors_and_exclusivity (wf : Workflow) (taskId agentId : String)
    (now : Int) :
    (lookupKey taskId wf.tasks = none →
      (claimTask wf taskId agentId now).1.success = false ∧
      (claimTask wf taskId agentId now).1.message =
        "Task " ++ taskId ++ " not found") ∧
    (∀ task, lookupKey taskId wf.tasks = some task →
      (task.status ≠ .pending →
        (claimTask wf taskId agentId now).1.success = false ∧
        (claimTask wf taskId agentId now).1.message =
          "Task is already " ++ statusStr task.status) ∧
      (task.status = .pending → optStrTruthy task.assigned_agent = true →
        (claimTask wf taskId agentId now).1.success = false ∧
        (claimTask wf taskId agentId now).1.message =
          "Task is already assigned to " ++ task.assigned_agent.getD "") ∧
      (task.status = .pending → optStrTruthy task.assigned_agent = false →
        depsCompleted wf task.dependencies = false →
        (claimTask wf taskId agentId now).1.success = false ∧
        (claimTask wf taskId agentId now).1.message =
          "Task dependencies not completed")) ∧
    ((claimTask wf taskId agentId now).1.success = true →
      ∀ agentId' now',
        (claimTask (claimTask wf taskId agentId now).2 taskId agentId' now').1.success
          = false ∧
        (claimTask (claimTask wf taskId agentId now).2 taskId agentId' now').1.message
          = "Task is already in_progress") := by
  refine ⟨?_, ?_, ?_⟩
  · intro h
    simp [claimTask, h]
  · intro task h
    refine ⟨?_, ?_, ?_⟩
    · intro hst
      have hna : isTaskAvailable task wf = false := by
        simp [isTaskAvailable, hst]
      simp [claimTask, h, hna, hst]
    · intro hst hass
      have hna : isTaskAvailable task wf = false := by
        simp [isTaskAvailable, hst, hass]
      simp [claimTask, h, hna, hst, hass]
    · intro hst hass hdeps
      have hna : isTaskAvailable task wf = false := by
        simp [isTaskAvailable, hst, hass, hdeps]
      simp [claimTask, h, hna, hst, hass, hdeps]
  · intro hsucc agentId' now'
    obtain ⟨task, hl, hav, h2⟩ := claimTask_success_inv wf taskId agentId now hsucc
    have hlook : lookupKey taskId (claimTask wf taskId agentId now).2.tasks =
        some { task with
          status := .in_progress,
          assigned_agent := some agentId,
          updated_at := now } := by
      rw [h2]
      exact lookupKey_insertKey_self _ _ _
    generalize hgen : (claimTask wf taskId agentId now).2 = wf2 at hlook ⊢
    have hna : isTaskAvailable { task with
        status := TaskStatus.in_progress,
        assigned_agent := some agentId,
        updated_at := now } wf2 = false := by
      simp [isTaskAvailable]
    constructor
    · simp [claimTask, hlook, hna]
    · simp [claimTask, hlook, hna, statusStr]

def wfC5 : Workflow := { emptyWf with tasks := [("t", baseTask "t")] }

/-- C5 witness: after agent a claims the fixture task, a second claim by
agent b fails with the non-pending conflict message. -/
theorem claimTask_errors_and_exclusivity_witness :
    (claimTask (claimTask wfC5 "t" "a" 0).2 "t" "b" 1).1.success = false ∧
    (claimTask (claimTask wfC5 "t" "a" 0).2 "t" "b" 1).1.message =
      "Task is already in_progress" :=
  (claimTask_errors_and_exclusivity wfC5 "t" "a" 0).2.2 (by decide) "b" 1

/-! ## C6: completeTask returns exactly the newly available dependents -/

theorem depFilter_iff (ts : List (String × Task)) (wf2 : Workflow) (d : String) :
    ((match lookupKey d ts with
      | some dep => isTaskAvailable dep wf2
      | none => false) = true) ↔
    (∃ dt, lookupKey d ts = some dt ∧ isTaskAvailable dt wf2 = true) := by
  cases h : lookupKey d ts <;> simp [h]

/-- C6: a successful completeTask reports as unblocked exactly those
dependents of the completed task that satisfy isTaskAvailable in the saved
document (in which the task's status is already completed); a dependent
with several dependencies therefore only appears once its last dependency
is completed. -/
theorem completeTask_unblocked_spec (wf : Workflow) (taskId : String)
    (o : CompleteOptions) (now : Int) (task : Task)
    (htask : lookupKey taskId wf.tasks = some task)
    (hnc : task.status ≠ .completed) :
    (completeTask wf taskId o now).1.success = true ∧
    (∀ d, d ∈ ((completeTask wf taskId o now).1.unblocked_tasks.getD []) ↔
      (d ∈ task.dependents ∧ ∃ dt,
        lookupKey d (completeTask wf taskId o now).2.tasks = some dt ∧
        isTaskAvailable dt (completeTask wf taskId o now).2 = true)) := by
  have hsucc : (completeTask wf taskId o now).1.success = true := by
    simp [completeTask, htask, hnc]
  refine ⟨hsucc, fun d => ?_⟩
  simp only [completeTask, htask, if_neg hnc, Option.getD_some, List.mem_filter]
  exact and_congr_right (fun _ => depFilter_iff _ _ d)

def taskA1 : Task := { baseTask "A1" with dependents := ["B"] }
def taskA2 : Task := { baseTask "A2" with dependents := ["B"] }
def taskB : Task := { baseTask "B" with dependencies := ["A1", "A2"] }

def wfC6 : Workflow :=
  { emptyWf with tasks := [("A1", taskA1), ("A2", taskA2), ("B", taskB)] }

/-- C6 witness: B depends on A1 and A2; completing A1 alone succeeds but
does not report B as unblocked, because A2 is still pending in the saved
document. -/
theorem completeTask_unblocked_spec_witness :
    (completeTask wfC6 "A1" { summary := "done", output := none } 5).1.success = true ∧
    ¬ ("B" ∈ (((completeTask wfC6 "A1"
        { summary := "done", output := none } 5).1.unblocked_tasks).getD [])) := by
  obtain ⟨hs, hiff⟩ := completeTask_unblocked_spec wfC6 "A1"
    { summary := "done", output := none } 5 taskA1 rfl (by decide)
  refine ⟨hs, fun hmem => ?_⟩
  obtain ⟨-, dt, hdt, hav⟩ := (hiff "B").mp hmem
  have h1 : lookupKey "B"
      (completeTask wfC6 "A1" { summary := "done", output := none } 5).2.tasks =
      some taskB := by decide
  rw [h1] at hdt
  injection hdt with hdt'
  subst hdt'
  have h2 : isTaskAvailable taskB
      (completeTask wfC6 "A1" { summary := "done", output := none } 5).2 = false := by
    decide
  rw [hav] at h2
  exact absurd h2 (by decide)

/-! ## C7: refactor-suggestion heuristic -/

/-- Count named by the claim: modifications to the exact (path, method)
pair whose timestamp lies within the trailing 24 hours of `now`. -/
def claimPairCount (mods : List FileModification) (path : String)
    (method : Option String) (now : Int) : Nat :=
  mods.countP (fun mo =>
    decide (mo.file = path ∧ mo.method = method ∧
      now - 24 * 60 * 60 * 1000 < mo.modified_at))

theorem checkRefactorSuggestion_modifications (wf : Workflow) (path : String)
    (method : Option String) (now : Int) :
    (checkRefactorSuggestion wf path method now).modifications = wf.modifications := by
  simp only [checkRefactorSuggestion]
  split
  · split <;> rfl
  · rfl

theorem checkRefactorSuggestion_prefix (wf : Workflow) (path : String)
    (method : Option String) (now : Int) :
    wf.refactor_suggestions <+:
      (checkRefactorSuggestion wf path method now).refactor_suggestions := by
  simp only [checkRefactorSuggestion]
  split
  · split
    · exact List.prefix_refl _
    · exact List.prefix_append _ _
  · exact List.prefix_refl _

/-- Behaviour of the suggestion check when the recorded method name is
truthy (present and non-empty): a suggestion for the (path, method) pair
is appended exactly when the pair's trailing-24h modification count
reaches the threshold and no suggestion for the pair exists; its priority
is high exactly when the count reaches twice the threshold, else medium. -/
theorem checkRefactorSuggestion_truthy_spec (wf : Workflow) (path : String)
    (method : Option String) (now : Int)
    (hm : optStrTruthy method = true) :
    ((wf.config.auto_refactor_threshold ≤
        (claimPairCount wf.modifications path method now : Int) ∧
      ∀ s ∈ wf.refactor_suggestions, ¬ (s.file = path ∧ s.method = method)) →
      ∃ sg, (checkRefactorSuggestion wf path method now).refactor_suggestions =
          wf.refactor_suggestions ++ [sg] ∧
        sg.file = path ∧ sg.method = method ∧
        (sg.priority = RefactorPriority.high ↔
          wf.config.auto_refactor_threshold * 2 ≤
            (claimPairCount wf.modifications path method now : Int)) ∧
        (sg.priority = RefactorPriority.high ∨
          sg.priority = RefactorPriority.medium)) ∧
    (¬ (wf.config.auto_refactor_threshold ≤
          (claimPairCount wf.modifications path method now : Int) ∧
        ∀ s ∈ wf.refactor_suggestions, ¬ (s.file = path ∧ s.method = method)) →
      (checkRefactorSuggestion wf path method now).refactor_suggestions =
        wf.refactor_suggestions) := by
  have hpred : ∀ mo ∈ wf.modifications,
      (decide (mo.file = path ∧ (optStrTruthy method = false ∨ mo.method = method) ∧
        now - 24 * 60 * 60 * 1000 < mo.modified_at)) =
      (decide (mo.file = path ∧ mo.method = method ∧
        now - 24 * 60 * 60 * 1000 < mo.modified_at)) := by
    intro mo _
    simp [hm]
  have hlen : (wf.modifications.filter (fun mo =>
      decide (mo.file = path ∧ (optStrTruthy method = false ∨ mo.method = method) ∧
        now - 24 * 60 * 60 * 1000 < mo.modified_at))).length =
      claimPairCount wf.modifications path method now := by
    unfold claimPairCount
    rw [List.countP_eq_length_filter, List.filter_congr hpred]
  have hsgpred : ∀ s : RefactorSuggestion,
      (decide (s.file = path ∧ (optStrTruthy method = false ∨ s.method = method))) =
      (decide (s.file = path ∧ s.method = method)) := by
    intro s
    simp [hm]
  simp only [checkRefactorSuggestion, hlen]
  by_cases hth : wf.config.auto_refactor_threshold ≤
      (claimPairCount wf.modifications path method now : Int)
  · rw [if_pos hth]
    cases hfind : wf.refactor_suggestions.find? (fun s : RefactorSuggestion =>
        decide (s.file = path ∧ (optStrTruthy method = false ∨ s.method = method))) with
    | some s =>
        have hps := List.find?_some hfind
        rw [hsgpred s] at hps
        have hmem := List.mem_of_find?_eq_some hfind
        constructor
        · rintro ⟨-, hnone⟩
          exact absurd (of_decide_eq_true hps) (hnone s hmem)
        · intro _
          rfl
    | none =>
        constructor
        · intro _
          refine ⟨_, rfl, rfl, rfl, ?_, ?_⟩
          · by_cases h2 : wf.config.auto_refactor_threshold * 2 ≤
                (claimPairCount wf.modifications path method now : Int)
            · rw [if_pos h2]
              simp [h2]
            · rw [if_neg h2]
              simp [h2]
          · by_cases h2 : wf.config.auto_refactor_threshold * 2 ≤
                (claimPairCount wf.modifications path method now : Int)
            · rw [if_pos h2]
              exact Or.inl rfl
            · rw [if_neg h2]
              exact Or.inr rfl
        · intro hneg
          exfalso
          apply hneg
          refine ⟨hth, fun s hs hps => ?_⟩
          have := List.find?_eq_none.mp hfind s hs
          rw [hsgpred s] at this
          exact this (decide_eq_true hps)
  · rw [if_neg hth]
    exact ⟨fun hc => absurd hc.1 hth, fun _ => rfl⟩

/-- C7 (amended, truthy-method case): when releaseLock by the lease owner
records a modification carrying a non-empty method name, the recorded
modification is appended to history, and a refactor suggestion for the
(path, method) pair is created iff the pair's trailing-24h modification
count (including the one just recorded) reaches the configured threshold
and no suggestion for the pair already exists; the created suggestion's
priority is high iff the count reaches twice the threshold and medium
otherwise, and previously existing suggestions are preserved unchanged. -/
theorem refactor_suggestion_spec (wf : Workflow) (filePath agentId : String)
    (minput : ModificationInput) (now : Int) (lock : FileLock)
    (hlock : lookupKey (normalizePath filePath) wf.locks = some lock)
    (howner : lock.locked_by = agentId)
    (hm : optStrTruthy minput.method = true) :
    (releaseLock wf filePath agentId (some minput) now).1.success = true ∧
    (releaseLock wf filePath agentId (some minput) now).2.modifications =
      wf.modifications ++
        [{ file := normalizePath filePath, method := minput.method,
           modified_by := agentId, modified_at := now,
           lines_changed := minput.lines_changed, reason := minput.reason,
           task_id := minput.task_id }] ∧
    ((wf.config.auto_refactor_threshold ≤
        (claimPairCount (wf.modifications ++
          [{ file := normalizePath filePath, method := minput.method,
             modified_by := agentId, modified_at := now,
             lines_changed := minput.lines_changed, reason := minput.reason,
             task_id := minput.task_id }]) (normalizePath filePath) minput.method now : Int) ∧
      ∀ s ∈ wf.refactor_suggestions,
        ¬ (s.file = normalizePath filePath ∧ s.method = minput.method)) →
      ∃ sg, (releaseLock wf filePath agentId (some minput) now).2.refactor_suggestions =
          wf.refactor_suggestions ++ [sg] ∧
        sg.file = normalizePath filePath ∧ sg.method = minput.method ∧
        (sg.priority = RefactorPriority.high ↔
          wf.config.auto_refactor_threshold * 2 ≤
            (claimPairCount (wf.modifications ++
              [{ file := normalizePath filePath, method := minput.method,
                 modified_by := agentId, modified_at := now,
                 lines_changed := minput.lines_changed, reason := minput.reason,
                 task_id := minput.task_id }]) (normalizePath filePath) minput.method now : Int)) ∧
        (sg.priority = RefactorPriority.high ∨
          sg.priority = RefactorPriority.medium)) ∧
    (¬ (wf.config.auto_refactor_threshold ≤
          (claimPairCount (wf.modifications ++
            [{ file := normalizePath filePath, method := minput.method,
               modified_by := agentId, modified_at := now,
               lines_changed := minput.lines_changed, reason := minput.reason,
               task_id := minput.task_id }]) (normalizePath filePath) minput.method now : Int) ∧
        ∀ s ∈ wf.refactor_suggestions,
          ¬ (s.file = normalizePath filePath ∧ s.method = minput.method)) →
      (releaseLock wf filePath agentId (some minput) now).2.refactor_suggestions =
        wf.refactor_suggestions) ∧
    wf.refactor_suggestions <+:
      (releaseLock wf filePath agentId (some minput) now).2.refactor_suggestions := by
  simp only [releaseLock, hlock]
  rw [if_neg (by simp [howner])]
  have key := checkRefactorSuggestion_truthy_spec
    { wf with modifications := wf.modifications ++
        [{ file := normalizePath filePath, method := minput.method,
           modified_by := agentId, modified_at := now,
           lines_changed := minput.lines_changed, reason := minput.reason,
           task_id := minput.task_id }] }
    (normalizePath filePath) minput.method now hm
  refine ⟨rfl, ?_, ?_, ?_, ?_⟩
  · exact checkRefactorSuggestion_modifications
      { wf with modifications := wf.modifications ++
          [{ file := normalizePath filePath, method := minput.method,
             modified_by := agentId, modified_at := now,
             lines_changed := minput.lines_changed, reason := minput.reason,
             task_id := minput.task_id }] }
      (normalizePath filePath) minput.method now
  · exact key.1
  · exact key.2
  · exact checkRefactorSuggestion_prefix
      { wf with modifications := wf.modifications ++
          [{ file := normalizePath filePath, method := minput.method,
             modified_by := agentId, modified_at := now,
             lines_changed := minput.lines_changed, reason := minput.reason,
             task_id := minput.task_id }] }
      (normalizePath filePath) minput.method now

def sugFoo : RefactorSuggestion :=
  { id := "rs1", file := "f", method := some "foo", reason := "x",
    suggested_by := "system", created_at := 0, priority := .medium }

def wfC7 : Workflow :=
  { emptyWf with
    config := { cfgDefault with auto_refactor_threshold := 1 },
    locks := [("f", baseLock "a" 1000 ["*"])],
    refactor_suggestions := [sugFoo] }

def modInC7 : ModificationInput :=
  { method := none, lines_changed := "1-2", reason := "r", task_id := "t" }

/-- C7 counterexample: a release that records a modification with no
method name, on a document whose threshold is 1 and whose only suggestion
is for the (f, "foo") pair.  The trailing-24h count of modifications to
the ("f", no-method) pair is 1 ≥ threshold and no suggestion for that pair
exists, yet no suggestion is created, because for a method-less
modification the code lets any existing suggestion for the path —
whatever its method — block creation (and counts all of the path's
modifications regardless of method). -/
theorem refactor_no_method_counterexample :
    (releaseLock wfC7 "f" "a" (some modInC7) 0).1.success = true ∧
    claimPairCount (releaseLock wfC7 "f" "a" (some modInC7) 0).2.modifications
      "f" none 0 = 1 ∧
    (∀ s ∈ wfC7.refactor_suggestions, ¬ (s.file = "f" ∧ s.method = none)) ∧
    wfC7.config.auto_refactor_threshold ≤ (1 : Int) ∧
    (releaseLock wfC7 "f" "a" (some modInC7) 0).2.refactor_suggestions =
      wfC7.refactor_suggestions := by
  exact ⟨by decide, by decide, by decide, by decide, by decide⟩

def wfW7 : Workflow :=
  { emptyWf with
    config := { cfgDefault with auto_refactor_threshold := 1 },
    locks := [("g", baseLock "a" 1000 ["*"])] }

def modW7 : ModificationInput :=
  { method := some "m", lines_changed := "3", reason := "r", task_id := "t" }

/-- C7 witness: with threshold 1 and an empty history, releasing the lease
on g with a modification for method m creates exactly one suggestion for
(g, m). -/
theorem refactor_suggestion_spec_witness :
    ∃ sg, (releaseLock wfW7 "g" "a" (some modW7) 4).2.refactor_suggestions =
        wfW7.refactor_suggestions ++ [sg] ∧
      sg.file = normalizePath "g" ∧ sg.method = some "m" ∧
      (sg.priority = RefactorPriority.high ∨
        sg.priority = RefactorPriority.medium) := by
  obtain ⟨-, -, hcre, -, -⟩ := refactor_suggestion_spec wfW7 "g" "a" modW7 4
    (baseLock "a" 1000 ["*"]) rfl rfl rfl
  obtain ⟨sg, h1, h2, h3, -, h5⟩ := hcre (by decide)
  exact ⟨sg, h1, h2, h3, h5⟩

/-! ## C8: waitForLock -/

def modEarly : FileModification :=
  { file := "f", method := none, modified_by := "a", modified_at := 500,
    lines_changed := "1", reason := "r", task_id := "t" }

def wfC8 : Workflow := { emptyWf with modifications := [modEarly] }

def envC8 : Nat → Workflow := fun _ => wfC8

/-- C8 counterexample: the wait begins at time 1000, the path is already
unlocked, and the history holds one modification recorded at time 500 —
before the wait began.  The wait succeeds immediately and its returned
list nevertheless contains that modification, because the code filters
with `modified_at > startTime - 60000`, a 60-second grace window before
the wait start. -/
theorem waitForLock_pre_start_mod_counterexample :
    waitForLockAux envC8 "f" 1000 180000 5000 1 0 =
      some { released := true, modifications := some [modEarly],
             timedOut := false } ∧
    modEarly.modified_at < 1000 := by
  exact ⟨by decide, by decide⟩

/-- C8 (amended): when the polling loop returns, either it succeeded — at
some poll k within the timeout at which the lease was gone, returning
exactly the modifications to the (normalized) path whose timestamp is
later than startTime - 60000 (a 60-second grace window before the wait
began), as read at that poll — or it timed out, returning a timeout
failure with no modification list. -/
theorem waitForLock_spec (env : Nat → Workflow) (filePath : String)
    (startTime timeout checkInterval : Int) (fuel j : Nat) (r : LockWaitResult)
    (h : waitForLockAux env filePath startTime timeout checkInterval fuel j = some r) :
    (r.released = true →
      ∃ k, j ≤ k ∧
        (startTime + (k : Int) * checkInterval) - startTime < timeout ∧
        lockIsHeld (env k) filePath (startTime + (k : Int) * checkInterval) = false ∧
        r.modifications = some ((env k).modifications.filter (fun m =>
          decide (m.file = normalizePath filePath ∧
            startTime - 60000 < m.modified_at))) ∧
        r.timedOut = false) ∧
    (r.released = false → r.timedOut = true ∧ r.modifications = none) := by
  induction fuel generalizing j with
  | zero => simp [waitForLockAux] at h
  | succ fuel ih =>
      rw [waitForLockAux] at h
      by_cases hg : (startTime + (j : Int) * checkInterval) - startTime < timeout
      · rw [if_pos hg] at h
        by_cases hheld : lockIsHeld (env j) filePath
            (startTime + (j : Int) * checkInterval) = true
        · rw [if_pos hheld] at h
          obtain ⟨h1, h2⟩ := ih (j + 1) h
          refine ⟨fun hr => ?_, h2⟩
          obtain ⟨k, hk, hrest⟩ := h1 hr
          exact ⟨k, Nat.le_of_succ_le hk, hrest⟩
        · rw [if_neg hheld] at h
          injection h with h
          subst h
          refine ⟨fun _ => ?_, fun hr => by simp at hr⟩
          refine ⟨j, Nat.le_refl j, hg, ?_, rfl, rfl⟩
          cases hb : lockIsHeld (env j) filePath (startTime + (j : Int) * checkInterval)
          · rfl
          · exact absurd hb hheld
      · rw [if_neg hg] at h
        injection h with h
        subst h
        exact ⟨fun hr => by simp at hr, fun _ => ⟨rfl, rfl⟩⟩

/-- C8 witness: at the first poll of the fixture environment the lease is
absent and the returned list equals the code's filtered history. -/
theorem waitForLock_spec_witness :
    ∃ k, lockIsHeld (envC8 k) "f" (1000 + (k : Int) * 5000) = false ∧
      (some [modEarly] : Option (List FileModification)) =
        some ((envC8 k).modifications.filter (fun m =>
          decide (m.file = normalizePath "f" ∧
            (1000 : Int) - 60000 < m.modified_at))) := by
  obtain ⟨h1, -⟩ := waitForLock_spec envC8 "f" 1000 180000 5000 1 0
    { released := true, modifications := some [modEarly], timedOut := false }
    (by decide)
  obtain ⟨k, -, -, hheld, hmods, -⟩ := h1 rfl
  exact ⟨k, hheld, hmods⟩

/-! ## C1: takeoverAgent -/

def taskT1 : Task :=
  { baseTask "T1" with status := .in_progress, assigned_agent := some "a1" }

def agentA1 : Agent := { baseAgent "a1" with claimed_tasks := ["T1"] }

def stC1 : Store :=
  { doc := { emptyWf with
      agents := [("a1", agentA1), ("a2", baseAgent "a2")],
      tasks := [("T1", taskT1)],
      locks := [("g.ts", baseLock "a1" 99999 ["*"])] },
    localAgentId := some "a2" }

/-- C1: takeover by a2 of a1 (which holds task T1 and the lease on g.ts)
succeeds and, in the finally saved document, T1's assignee and the lease
owner become a2 and a1 is terminated with an empty claim set — but a2's
claimed-task set does not contain T1: the pushes land on the separately
loaded-and-saved copy returned by getOrCreateCurrentAgent, while the final
save persists the first loaded copy, so the claim-set transfer is lost. -/
theorem takeover_loses_claim_set :
    (takeoverAgent stC1 "a1" 100 "ea_fresh" "sess").1.success = true ∧
    (takeoverAgent stC1 "a1" 100 "ea_fresh" "sess").1.inherited_tasks =
      some ["T1"] ∧
    ((lookupKey "T1" (takeoverAgent stC1 "a1" 100 "ea_fresh" "sess").2.doc.tasks).map
      (fun t => t.assigned_agent)) = some (some "a2") ∧
    ((lookupKey "g.ts" (takeoverAgent stC1 "a1" 100 "ea_fresh" "sess").2.doc.locks).map
      (fun l => l.locked_by)) = some "a2" ∧
    ((lookupKey "a1" (takeoverAgent stC1 "a1" 100 "ea_fresh" "sess").2.doc.agents).map
      (fun a => (a.status, a.claimed_tasks))) =
      some (AgentStatus.terminated, []) ∧
    ((lookupKey "a2" (takeoverAgent stC1 "a1" 100 "ea_fresh" "sess").2.doc.agents).map
      (fun a => a.claimed_tasks)) = some [] := by
  exact ⟨by decide, by decide, by decide, by decide, by decide, by decide⟩

end EasyAgents
